import Mathlib

/-!
Shallow embedding of the issue-scoring triage application (src/App.tsx).

The application is a single React component; its core logic consists of pure
helper functions (parseRepoUrl, isValidScore), an async retry loop
(fetchGeminiSummary), fail-safe network checks (checkForOpenPRs,
generateSummaryForIssue), and state-transition handlers over the session
state (handleNext, the processCurrentIssue effect, and the modal confirm
handlers for exit and early finish).

Network calls are modelled by passing their outcomes in explicitly (an
attempt oracle for the Gemini loop, a FetchResult value for the GitHub
calls); everything else is translated directly from the source.  JavaScript
strings are modelled as Lean String values, JavaScript arrays as List, and
the scores object (a JS object keyed by issue number) as an association
list with unique keys.
-/

namespace IssueScoring

/-- Constant `TARGET_ISSUE_COUNT` from App.tsx line 34: number of fully scored issues
required to complete a session. -/
def TARGET_ISSUE_COUNT : Nat := 15

/-- Interface `ScoreEntry` from App.tsx lines 36-44.  The three rating axes
and the classification are strings; the issue identification fields are
optional (they are absent on the draft rating and filled in on commit). -/
structure ScoreEntry where
  ambiguity : String
  scale : String
  novelty : String
  type : String
  issueNumber : Option Nat := none
  title : Option String := none
  url : Option String := none
  deriving DecidableEq, Repr

/-- The `validValues` array from `isValidScore` (App.tsx line 64). -/
def validValues : List String := ["1", "2", "3", "4", "5"]

/-- Function `isValidScore` from App.tsx lines 63-70: a score entry is fully scored
iff ambiguity, scale and novelty are each in validValues. -/
def isValidScore (scoreEntry : ScoreEntry) : Bool :=
  validValues.contains scoreEntry.ambiguity &&
  validValues.contains scoreEntry.scale &&
  validValues.contains scoreEntry.novelty

/-! ## RepoReference parser -/

/-- Result record of `parseRepoUrl` (`{ owner, repo }`). -/
structure RepoRef where
  owner : String
  repo : String
  deriving DecidableEq, Repr

/-- JavaScript `url.replace(/\/$/, "")` (App.tsx line 51): removes a single
trailing slash when present. -/
def trimTrailingSlash (l : List Char) : List Char :=
  if l.getLast? = some '/' then l.dropLast else l

/-- JavaScript `String.prototype.split` with a single-character separator:
`"".split(sep)` is `[""]`, and each separator occurrence opens a new
segment. -/
def splitOnChar (sep : Char) : List Char → List (List Char)
  | [] => [[]]
  | c :: cs =>
    if c = sep then [] :: splitOnChar sep cs
    else
      match splitOnChar sep cs with
      | [] => [[c]]
      | p :: ps => (c :: p) :: ps

/-- Function `parseRepoUrl` from App.tsx lines 49-60: trim one trailing slash, split
on "/", fail when fewer than two segments remain, otherwise `repo` is the
last segment (`parts.pop()`) and `owner` the second-to-last
(`parts.pop()` again).  The `try`/`catch` wrapper in the source can never
fire on these total operations and is not modelled. -/
def parseRepoUrl (url : String) : Option RepoRef :=
  let cleanUrl := trimTrailingSlash url.data
  let parts := splitOnChar '/' cleanUrl
  if parts.length < 2 then none
  else
    match parts.reverse with
    | repo :: owner :: _ => some ⟨⟨owner⟩, ⟨repo⟩⟩
    | _ => none

/-! ## Parser lemmas -/

theorem splitOnChar_ne_nil (sep : Char) (l : List Char) :
    splitOnChar sep l ≠ [] := by
  induction l with
  | nil => simp [splitOnChar]
  | cons c cs ih =>
    simp only [splitOnChar]
    split
    · simp
    · split
      · simp
      · simp

theorem splitOnChar_length_ge_two (sep : Char) (l : List Char)
    (h : sep ∈ l) : 2 ≤ (splitOnChar sep l).length := by
  induction l with
  | nil => simp at h
  | cons c cs ih =>
    simp only [splitOnChar]
    rcases List.mem_cons.mp h with hc | hmem
    · subst hc
      rw [if_pos rfl]
      have := splitOnChar_ne_nil sep cs
      have : 0 < (splitOnChar sep cs).length := List.length_pos.mpr this
      simp only [List.length_cons]
      omega
    · by_cases hcs : c = sep
      · subst hcs
        rw [if_pos rfl]
        have := splitOnChar_ne_nil c cs
        have : 0 < (splitOnChar c cs).length := List.length_pos.mpr this
        simp only [List.length_cons]
        omega
      · simp only [if_neg hcs]
        have h2 := ih hmem
        cases hsp : splitOnChar sep cs with
        | nil => exact absurd hsp (splitOnChar_ne_nil sep cs)
        | cons p ps =>
          rw [hsp] at h2
          simpa using h2

/-! ## Summarizer client (fetchGeminiSummary, App.tsx lines 73-113)

The network call of one attempt (fetch + response.ok check + json
extraction) is abstracted as an oracle `attempt : Nat → Except String
String`: `attempt r` is the outcome of the loop iteration with counter
value `r` (ok carries the extracted summary text, error carries the thrown
message).  The loop is translated with its counter; instead of really
sleeping, the delays slept are accumulated in order in a list. -/

/-- Constant `maxRetries` from App.tsx line 89. -/
def maxRetries : Nat := 3

/-- Constant `delays` from App.tsx line 90: backoff sleeps in milliseconds. -/
def delays : List Nat := [1000, 2000, 4000]

/-- The `while (retries <= maxRetries)` loop of `fetchGeminiSummary`
(App.tsx lines 92-112).  On success return the value; on failure rethrow
when `retries == maxRetries`, otherwise sleep `delays[retries]` and
increment the counter.  The final branch (the while condition failing) is
unreachable from `retries = 0` because the last failing attempt rethrows;
JavaScript would fall off the loop returning undefined there. -/
def geminiLoop (attempt : Nat → Except String String) (retries : Nat)
    (slept : List Nat) : Except String String × List Nat :=
  if h : retries ≤ maxRetries then
    match attempt retries with
    | Except.ok v => (Except.ok v, slept)
    | Except.error e =>
      if h2 : retries = maxRetries then (Except.error e, slept)
      else geminiLoop attempt (retries + 1) (slept ++ [delays.getD retries 0])
  else (Except.error "unreachable: while loop exited", slept)
  termination_by maxRetries + 1 - retries
  decreasing_by
    simp only [maxRetries] at h h2 ⊢
    omega

/-- Function `fetchGeminiSummary` from App.tsx lines 73-113: run the retry loop from
counter 0 with no sleeps performed yet. -/
def fetchGeminiSummary (attempt : Nat → Except String String) :
    Except String String × List Nat :=
  geminiLoop attempt 0 []

/-! ### Evaluation lemmas for the retry loop -/

theorem geminiLoop_step_ok (attempt : Nat → Except String String)
    (retries : Nat) (slept : List Nat) (h : retries ≤ maxRetries)
    (v : String) (hv : attempt retries = Except.ok v) :
    geminiLoop attempt retries slept = (Except.ok v, slept) := by
  rw [geminiLoop.eq_def, dif_pos h, hv]

theorem geminiLoop_step_err_last (attempt : Nat → Except String String)
    (retries : Nat) (slept : List Nat) (e : String)
    (hr : retries = maxRetries) (he : attempt retries = Except.error e) :
    geminiLoop attempt retries slept = (Except.error e, slept) := by
  subst hr
  rw [geminiLoop.eq_def, dif_pos (le_refl _), he]
  exact dif_pos rfl

theorem geminiLoop_step_err (attempt : Nat → Except String String)
    (retries : Nat) (slept : List Nat) (e : String)
    (h : retries < maxRetries) (he : attempt retries = Except.error e) :
    geminiLoop attempt retries slept
      = geminiLoop attempt (retries + 1) (slept ++ [delays.getD retries 0]) := by
  rw [geminiLoop.eq_def, dif_pos (le_of_lt h), he]
  exact dif_neg (by omega)

theorem geminiLoop_three_errors (a : Nat → Except String String)
    (e0 e1 e2 : String) (h0 : a 0 = Except.error e0)
    (h1 : a 1 = Except.error e1) (h2 : a 2 = Except.error e2) :
    fetchGeminiSummary a = geminiLoop a 3 [1000, 2000, 4000] := by
  unfold fetchGeminiSummary
  rw [geminiLoop_step_err a 0 [] e0 (by decide) h0,
      geminiLoop_step_err a 1 _ e1 (by decide) h1,
      geminiLoop_step_err a 2 _ e2 (by decide) h2]
  rfl

/-- C3: the summarizer client makes up to 3 retries after the initial
attempt (4 attempts total, so the result depends on at most the first four
attempt outcomes), sleeping 1000, 2000 and 4000 ms in that order between
attempts; if attempts 1-3 fail and attempt 4 succeeds, the success value is
returned with total backoff delay at least 7000 ms, and if the final
attempt also fails the error propagates to the caller. -/
theorem fetchGeminiSummary_retry_spec :
    ∀ attempt : Nat → Except String String,
      (∀ v : String,
        (∀ i, i < 3 → ∃ e, attempt i = Except.error e) →
        attempt 3 = Except.ok v →
        fetchGeminiSummary attempt = (Except.ok v, [1000, 2000, 4000]) ∧
          7000 ≤ (fetchGeminiSummary attempt).2.sum) ∧
      (∀ e : String,
        (∀ i, i < 3 → ∃ e', attempt i = Except.error e') →
        attempt 3 = Except.error e →
        fetchGeminiSummary attempt = (Except.error e, [1000, 2000, 4000])) ∧
      (∀ attempt2 : Nat → Except String String,
        (∀ i, i ≤ 3 → attempt i = attempt2 i) →
        fetchGeminiSummary attempt = fetchGeminiSummary attempt2) := by
  intro attempt
  refine ⟨?_, ?_, ?_⟩
  · intro v herr hok
    obtain ⟨e0, h0⟩ := herr 0 (by omega)
    obtain ⟨e1, h1⟩ := herr 1 (by omega)
    obtain ⟨e2, h2⟩ := herr 2 (by omega)
    have heq : fetchGeminiSummary attempt = (Except.ok v, [1000, 2000, 4000]) := by
      rw [geminiLoop_three_errors attempt e0 e1 e2 h0 h1 h2,
          geminiLoop_step_ok attempt 3 _ (by decide) v hok]
    refine ⟨heq, ?_⟩
    rw [heq]
    norm_num [List.sum_cons, List.sum_nil]
  · intro e herr hlast
    obtain ⟨e0, h0⟩ := herr 0 (by omega)
    obtain ⟨e1, h1⟩ := herr 1 (by omega)
    obtain ⟨e2, h2⟩ := herr 2 (by omega)
    rw [geminiLoop_three_errors attempt e0 e1 e2 h0 h1 h2,
        geminiLoop_step_err_last attempt 3 _ e (by decide) hlast]
  · intro attempt2 hagree
    have a0 := hagree 0 (by omega)
    have a1 := hagree 1 (by omega)
    have a2 := hagree 2 (by omega)
    have a3 := hagree 3 (by omega)
    unfold fetchGeminiSummary
    cases h0 : attempt 0 with
    | ok v =>
      rw [geminiLoop_step_ok attempt 0 [] (by decide) v h0,
          geminiLoop_step_ok attempt2 0 [] (by decide) v (a0 ▸ h0)]
    | error e0 =>
      rw [geminiLoop_step_err attempt 0 [] e0 (by decide) h0,
          geminiLoop_step_err attempt2 0 [] e0 (by decide) (a0 ▸ h0)]
      cases h1 : attempt 1 with
      | ok v =>
        rw [geminiLoop_step_ok attempt 1 _ (by decide) v h1,
            geminiLoop_step_ok attempt2 1 _ (by decide) v (a1 ▸ h1)]
      | error e1 =>
        rw [geminiLoop_step_err attempt 1 _ e1 (by decide) h1,
            geminiLoop_step_err attempt2 1 _ e1 (by decide) (a1 ▸ h1)]
        cases h2 : attempt 2 with
        | ok v =>
          rw [geminiLoop_step_ok attempt 2 _ (by decide) v h2,
              geminiLoop_step_ok attempt2 2 _ (by decide) v (a2 ▸ h2)]
        | error e2 =>
          rw [geminiLoop_step_err attempt 2 _ e2 (by decide) h2,
              geminiLoop_step_err attempt2 2 _ e2 (by decide) (a2 ▸ h2)]
          cases h3 : attempt 3 with
          | ok v =>
            rw [geminiLoop_step_ok attempt 3 _ (by decide) v h3,
                geminiLoop_step_ok attempt2 3 _ (by decide) v (a3 ▸ h3)]
          | error e3 =>
            rw [geminiLoop_step_err_last attempt 3 _ e3 (by decide) h3,
                geminiLoop_step_err_last attempt2 3 _ e3 (by decide) (a3 ▸ h3)]

/-- Witness for C3 at a concrete attempt oracle that fails three times and
succeeds on the fourth attempt: the success value is returned after backoff
sleeps of 1000, 2000 and 4000 ms. -/
theorem fetchGeminiSummary_retry_spec_witness :
    fetchGeminiSummary
        (fun i => if i < 3 then Except.error "boom" else Except.ok "summary")
      = (Except.ok "summary", [1000, 2000, 4000]) :=
  ((fetchGeminiSummary_retry_spec
      (fun i => if i < 3 then Except.error "boom" else Except.ok "summary")).1
    "summary"
    (fun i hi => ⟨"boom", by simp [hi]⟩)
    (by simp)).1

/-! ## GitHub fetch outcomes

The browser fetch of the GitHub endpoints is modelled by an explicit
outcome value: `transportError` is a rejected fetch promise (network
failure), `notOk` a response with `response.ok` false, `parseError` an ok
response whose `response.json()` rejects or whose body has the wrong
shape, and `ok` an ok response with a parsed body. -/

inductive FetchResult (α : Type) where
  | transportError : FetchResult α
  | notOk : FetchResult α
  | parseError : FetchResult α
  | ok : α → FetchResult α
  deriving DecidableEq, Repr

/-- The `source.issue` sub-record of a timeline event: `pull_request` is
present iff the referencing issue is a pull request (`Option Unit` models
presence of the field, which JavaScript tests for truthiness). -/
structure SourceIssue where
  pull_request : Option Unit
  state : String
  deriving DecidableEq, Repr

/-- The `source` sub-record of a timeline event. -/
structure EventSource where
  issue : Option SourceIssue
  deriving DecidableEq, Repr

/-- A timeline event as consumed by `checkForOpenPRs`: the `event` kind and
the optional `source` record (optional chaining `event.source?.issue?` in
the code). -/
structure TimelineEvent where
  event : String
  source : Option EventSource
  deriving DecidableEq, Repr

/-- The predicate passed to `events.some` in `checkForOpenPRs` (App.tsx
lines 398-403): a cross-referenced event whose source issue is a
pull request and is open. -/
def isOpenPrCrossRef (ev : TimelineEvent) : Bool :=
  ev.event == "cross-referenced" &&
    (match ev.source with
     | some src =>
       match src.issue with
       | some iss => iss.pull_request.isSome && iss.state == "open"
       | none => false
     | none => false)

/-- Function `checkForOpenPRs` from App.tsx lines 384-408, as a function of the
timeline fetch outcome: a non-ok response returns false (line 393, "Fail
safe"), a transport error or a parse failure is caught and returns false
(lines 404-407), and an ok response returns `events.some(...)`. -/
def checkForOpenPRs (fetched : FetchResult (List TimelineEvent)) : Bool :=
  match fetched with
  | FetchResult.notOk => false
  | FetchResult.transportError => false
  | FetchResult.parseError => false
  | FetchResult.ok events => events.any isOpenPrCrossRef

/-! ## Issues, comments and the summarization step -/

/-- An issue as used by the embedded operations (a subset of the fields of
the records returned by the search endpoint). -/
structure Issue where
  number : Nat
  title : String
  body : Option String
  html_url : String
  comments_url : String
  url : String
  created_at : String
  deriving DecidableEq, Repr

/-- Placeholder used for out-of-range list reads; every theorem that reads
`issues[currentIndex]` assumes the index is in range, as the code does. -/
def defaultIssue : Issue :=
  { number := 0, title := "", body := none, html_url := ""
    comments_url := "", url := "", created_at := "" }

/-- The `user` sub-record of a comment. -/
structure CommentUser where
  login : String
  deriving DecidableEq, Repr

/-- A comment as consumed by `generateSummaryForIssue`. -/
structure Comment where
  user : CommentUser
  body : String
  deriving DecidableEq, Repr

/-- The text blob built by `generateSummaryForIssue` (App.tsx lines
462-470): title and body (or a placeholder), then, when any comments were
fetched, a Comments section with one line per comment. -/
def issueFullText (issue : Issue) (comments : List Comment) : String :=
  let base := "Title: " ++ issue.title ++ "\n\nBody:\n"
      ++ issue.body.getD "No description provided." ++ "\n\n"
  if comments.length > 0 then
    base ++ "Comments:\n"
      ++ String.join (comments.map
          (fun c => "- User " ++ c.user.login ++ ": " ++ c.body ++ "\n"))
  else base

/-- Function `generateSummaryForIssue` from App.tsx lines 446-483, as a function of
the comments-fetch outcome; the returned value is the text blob handed to
the summarizer, or none when the step aborts into its catch block (which
sets summaryError) before the summarizer is invoked.  A non-ok response
degrades to an empty comment list (`commentsResp.ok ? await
commentsResp.json() : []`, line 459); a rejected fetch or a rejected
`json()` is caught by the surrounding try/catch (lines 475-479). -/
def generateSummaryForIssue (issue : Issue)
    (commentsFetch : FetchResult (List Comment)) : Option String :=
  match commentsFetch with
  | FetchResult.transportError => none
  | FetchResult.parseError => none
  | FetchResult.notOk => some (issueFullText issue [])
  | FetchResult.ok comments => some (issueFullText issue comments)

/-! ## Session state -/

/-- The `step` state variable (App.tsx lines 281-283). -/
inductive Step where
  | input
  | fetching
  | triage
  | complete
  deriving DecidableEq, Repr

/-- The session-relevant state variables of the App component: `step`,
`issues`, `currentIndex`, `scores`, `currentRating`, `currentSummary` and
`summaryError`.  The scores object (a JavaScript object keyed by issue
number) is modelled as an association list with unique keys; JavaScript
enumerates integer keys in ascending order while this model keeps insertion
order, a difference no claim depends on (only membership, lookup and
counting are used).  Loading flags, modal flags and the persisted settings
are rendering concerns and are not modelled. -/
structure SessionState where
  step : Step
  issues : List Issue
  currentIndex : Nat
  scores : List (Nat × ScoreEntry)
  currentRating : ScoreEntry
  currentSummary : String
  summaryError : Option String
  deriving DecidableEq, Repr

/-- The initial/reset draft rating (App.tsx lines 319-324 and 415). -/
def blankRating : ScoreEntry :=
  { ambiguity := "", scale := "", novelty := "", type := "" }

/-- The JavaScript object update `{ ...scores, [n]: entry }`: if the key is
already present its entry is replaced, otherwise the new entry is added. -/
def setScore (scores : List (Nat × ScoreEntry)) (n : Nat) (entry : ScoreEntry) :
    List (Nat × ScoreEntry) :=
  if scores.any (fun p => p.1 == n) then
    scores.map (fun p => if p.1 = n then (n, entry) else p)
  else scores ++ [(n, entry)]

/-- Lookup of the entry stored for an issue number. -/
def lookupScore (n : Nat) : List (Nat × ScoreEntry) → Option ScoreEntry
  | [] => none
  | p :: ps => if p.1 = n then some p.2 else lookupScore n ps

/-- Number of entries keyed by a given issue number. -/
def countKey (n : Nat) (scores : List (Nat × ScoreEntry)) : Nat :=
  (scores.map Prod.fst).count n

/-- The expression `Object.values(scores).filter(isValidScore).length` (App.tsx lines 501
and 564): the number of fully scored entries. -/
def currentValidCount (scores : List (Nat × ScoreEntry)) : Nat :=
  ((scores.map Prod.snd).filter isValidScore).length

/-- Function `handleNext` from App.tsx lines 485-516: commit the draft rating as a
ScoreEntry keyed by the current issue's number, then transition to complete
when the valid count reaches `TARGET_ISSUE_COUNT`, otherwise advance the
index when a next index exists and transition to complete when not. -/
def handleNext (s : SessionState) : SessionState :=
  let issue := s.issues.getD s.currentIndex defaultIssue
  let newEntry : ScoreEntry :=
    { s.currentRating with
      issueNumber := some issue.number
      title := some issue.title
      url := some issue.html_url }
  let newScores := setScore s.scores issue.number newEntry
  if TARGET_ISSUE_COUNT ≤ currentValidCount newScores then
    { s with scores := newScores, step := Step.complete }
  else if s.currentIndex < s.issues.length - 1 then
    { s with scores := newScores, currentIndex := s.currentIndex + 1 }
  else
    { s with scores := newScores, step := Step.complete }

/-- The `processCurrentIssue` effect body (App.tsx lines 411-444), with the
PR-liveness outcome supplied by `prCheck`: guarded on the triage phase and
an in-range index, it resets the draft rating and the summary state, then
either skips the issue (advance, or complete at the end of the batch) when
the check returns true, or proceeds to `generateSummaryForIssue` (which
changes none of the fields modelled as consequential here). -/
def processCurrentIssue (prCheck : Issue → Bool) (s : SessionState) :
    SessionState :=
  if s.step = Step.triage ∧ s.currentIndex < s.issues.length then
    let s1 := { s with
      currentRating := blankRating
      summaryError := none
      currentSummary := "" }
    if prCheck (s.issues.getD s.currentIndex defaultIssue) then
      if s.currentIndex < s.issues.length - 1 then
        { s1 with currentIndex := s.currentIndex + 1 }
      else
        { s1 with step := Step.complete }
    else s1
  else s

/-- The finish-early modal's onConfirm handler (App.tsx lines 695-698):
transition to complete; nothing else changes. -/
def finishEarlyConfirm (s : SessionState) : SessionState :=
  { s with step := Step.complete }

/-- The exit modal's onConfirm handler (App.tsx lines 681-686): return to
the input phase and clear the issue list and the score mapping.  (The
handler does not touch `currentIndex`; it is reset on the next successful
fetch, App.tsx line 375.) -/
def exitConfirm (s : SessionState) : SessionState :=
  { s with step := Step.input, issues := [], scores := [] }

/-! ## Lemmas about the score mapping -/

theorem any_fst_beq (m : List (Nat × ScoreEntry)) (n : Nat) :
    m.any (fun p => p.1 == n) = true ↔ n ∈ m.map Prod.fst := by
  rw [List.any_eq_true]
  constructor
  · rintro ⟨p, hmem, hp⟩
    exact List.mem_map.mpr ⟨p, hmem, beq_iff_eq.mp hp⟩
  · intro h
    obtain ⟨p, hmem, hfst⟩ := List.mem_map.mp h
    exact ⟨p, hmem, beq_iff_eq.mpr hfst⟩

theorem map_fst_replace (m : List (Nat × ScoreEntry)) (n : Nat) (e : ScoreEntry) :
    (m.map (fun p => if p.1 = n then (n, e) else p)).map Prod.fst
      = m.map Prod.fst := by
  induction m with
  | nil => rfl
  | cons p ps ih =>
    simp only [List.map_cons]
    by_cases h : p.1 = n
    · rw [if_pos h]; simp [ih, h]
    · rw [if_neg h]; simp [ih]

theorem setScore_keys (m : List (Nat × ScoreEntry)) (n : Nat) (e : ScoreEntry) :
    (setScore m n e).map Prod.fst =
      if n ∈ m.map Prod.fst then m.map Prod.fst else m.map Prod.fst ++ [n] := by
  unfold setScore
  by_cases h : n ∈ m.map Prod.fst
  · rw [if_pos ((any_fst_beq m n).mpr h), if_pos h, map_fst_replace]
  · rw [if_neg (fun hc => h ((any_fst_beq m n).mp hc)), if_neg h]
    simp

theorem lookupScore_replace (m : List (Nat × ScoreEntry)) (n : Nat)
    (e : ScoreEntry) (h : n ∈ m.map Prod.fst) :
    lookupScore n (m.map (fun p => if p.1 = n then (n, e) else p)) = some e := by
  induction m with
  | nil => simp at h
  | cons p ps ih =>
    simp only [List.map_cons]
    by_cases hp : p.1 = n
    · rw [if_pos hp]
      simp [lookupScore]
    · rw [if_neg hp]
      simp only [lookupScore]
      rw [if_neg hp]
      apply ih
      simp only [List.map_cons, List.mem_cons] at h
      rcases h with h | h
      · exact absurd h.symm hp
      · exact h

theorem lookupScore_append_single (m : List (Nat × ScoreEntry)) (n : Nat)
    (e : ScoreEntry) (h : n ∉ m.map Prod.fst) :
    lookupScore n (m ++ [(n, e)]) = some e := by
  induction m with
  | nil => simp [lookupScore]
  | cons p ps ih =>
    simp only [List.cons_append, lookupScore]
    have hp : ¬ p.1 = n := by
      intro hc
      exact h (by simp [hc])
    rw [if_neg hp]
    exact ih (fun hc => h (by simp [List.mem_cons]; right; simpa using hc))

theorem lookupScore_setScore_self (m : List (Nat × ScoreEntry)) (n : Nat)
    (e : ScoreEntry) : lookupScore n (setScore m n e) = some e := by
  unfold setScore
  by_cases h : n ∈ m.map Prod.fst
  · rw [if_pos ((any_fst_beq m n).mpr h)]
    exact lookupScore_replace m n e h
  · rw [if_neg (fun hc => h ((any_fst_beq m n).mp hc))]
    exact lookupScore_append_single m n e h

theorem lookupScore_replace_ne (m : List (Nat × ScoreEntry)) (n k : Nat)
    (e : ScoreEntry) (hk : k ≠ n) :
    lookupScore k (m.map (fun p => if p.1 = n then (n, e) else p))
      = lookupScore k m := by
  induction m with
  | nil => rfl
  | cons p ps ih =>
    simp only [List.map_cons]
    by_cases hp : p.1 = n
    · rw [if_pos hp]
      simp only [lookupScore]
      rw [if_neg (fun hc => hk hc.symm), if_neg (fun hc => hk (by omega))]
      exact ih
    · rw [if_neg hp]
      simp only [lookupScore]
      rw [ih]

theorem lookupScore_append_ne (m : List (Nat × ScoreEntry)) (n k : Nat)
    (e : ScoreEntry) (hk : k ≠ n) :
    lookupScore k (m ++ [(n, e)]) = lookupScore k m := by
  induction m with
  | nil =>
    simp only [List.nil_append, lookupScore]
    rw [if_neg (fun hc => hk hc.symm)]
  | cons p ps ih =>
    simp only [List.cons_append, lookupScore]
    exact if_congr Iff.rfl rfl ih

theorem lookupScore_setScore_ne (m : List (Nat × ScoreEntry)) (n k : Nat)
    (e : ScoreEntry) (hk : k ≠ n) :
    lookupScore k (setScore m n e) = lookupScore k m := by
  unfold setScore
  split
  · exact lookupScore_replace_ne m n k e hk
  · exact lookupScore_append_ne m n k e hk

theorem countKey_setScore_self (m : List (Nat × ScoreEntry)) (n : Nat)
    (e : ScoreEntry) (hnd : (m.map Prod.fst).Nodup) :
    countKey n (setScore m n e) = 1 := by
  unfold countKey
  rw [setScore_keys]
  by_cases h : n ∈ m.map Prod.fst
  · rw [if_pos h]
    exact List.count_eq_one_of_mem hnd h
  · rw [if_neg h, List.count_append]
    simp [List.count_eq_zero_of_not_mem h]

theorem nodup_setScore (m : List (Nat × ScoreEntry)) (n : Nat)
    (e : ScoreEntry) (hnd : (m.map Prod.fst).Nodup) :
    ((setScore m n e).map Prod.fst).Nodup := by
  rw [setScore_keys]
  by_cases h : n ∈ m.map Prod.fst
  · rw [if_pos h]; exact hnd
  · rw [if_neg h]
    simp [List.nodup_append, hnd, h]

/-! ## Claim theorems: parser and validator -/

/-- C7: `parseRepoUrl` removes a single trailing slash, splits on "/",
returns null when fewer than two segments remain, and otherwise returns the
last segment as repo and the second-to-last as owner; parsing
"https://github.com/acme/widget/" yields owner "acme" and repo "widget",
and parsing "not-a-url" fails. -/
theorem parseRepoUrl_spec :
    (∀ url : String,
      (splitOnChar '/' (trimTrailingSlash url.data)).length < 2 →
      parseRepoUrl url = none) ∧
    (∀ (url : String) (repo owner : List Char) (rest : List (List Char)),
      (splitOnChar '/' (trimTrailingSlash url.data)).reverse = repo :: owner :: rest →
      parseRepoUrl url = some ⟨⟨owner⟩, ⟨repo⟩⟩) ∧
    parseRepoUrl "https://github.com/acme/widget/" = some ⟨"acme", "widget"⟩ ∧
    parseRepoUrl "not-a-url" = none := by
  refine ⟨?_, ?_, by decide, by decide⟩
  · intro url h
    simp only [parseRepoUrl]
    rw [if_pos h]
  · intro url repo owner rest h
    have hlen : ¬ (splitOnChar '/' (trimTrailingSlash url.data)).length < 2 := by
      have := congrArg List.length h
      simp only [List.length_reverse, List.length_cons] at this
      omega
    simp only [parseRepoUrl]
    rw [if_neg hlen, h]

/-- Witness for C7 at a concrete input: "not-a-url" has a single segment,
so the parser fails on it. -/
theorem parseRepoUrl_spec_witness : parseRepoUrl "not-a-url" = none :=
  parseRepoUrl_spec.1 "not-a-url" (by decide)

/-- C10: whenever the trailing-slash-trimmed input still contains a "/",
`parseRepoUrl` returns a (possibly nonsensical) non-null result; in
particular "https://github.com/" parses to owner "" and repo "github.com". -/
theorem parseRepoUrl_lenient :
    (∀ url : String, '/' ∈ trimTrailingSlash url.data →
      (parseRepoUrl url).isSome = true) ∧
    parseRepoUrl "https://github.com/" = some ⟨"", "github.com"⟩ := by
  constructor
  · intro url h
    have h2 := splitOnChar_length_ge_two '/' _ h
    have hrl : 2 ≤ (splitOnChar '/' (trimTrailingSlash url.data)).reverse.length := by
      simpa using h2
    simp only [parseRepoUrl]
    rw [if_neg (by omega)]
    cases hrv : (splitOnChar '/' (trimTrailingSlash url.data)).reverse with
    | nil => rw [hrv] at hrl; simp at hrl
    | cons a t =>
      cases t with
      | nil => rw [hrv] at hrl; simp at hrl
      | cons b t2 => simp
  · decide

/-- Witness for C10 at a concrete input: "a/b" contains a slash after
trimming, so the parser succeeds on it. -/
theorem parseRepoUrl_lenient_witness : (parseRepoUrl "a/b").isSome = true :=
  parseRepoUrl_lenient.1 "a/b" (by decide)

/-- C2: `isValidScore` is true iff ambiguity, scale and novelty are each one
of "1".."5"; any of the three equal to "x" forces false, and the type field
has no effect. -/
theorem isValidScore_spec :
    ∀ e : ScoreEntry,
      (isValidScore e = true ↔
        e.ambiguity ∈ validValues ∧ e.scale ∈ validValues ∧
          e.novelty ∈ validValues) ∧
      ((e.ambiguity = "x" ∨ e.scale = "x" ∨ e.novelty = "x") →
        isValidScore e = false) ∧
      (∀ t : String, isValidScore { e with type := t } = isValidScore e) := by
  intro e
  have hiff : isValidScore e = true ↔
      e.ambiguity ∈ validValues ∧ e.scale ∈ validValues ∧
        e.novelty ∈ validValues := by
    simp [isValidScore, List.contains, Bool.and_eq_true, and_assoc]
  refine ⟨hiff, ?_, fun t => rfl⟩
  intro hx
  cases hv : isValidScore e with
  | false => rfl
  | true =>
    exfalso
    have hm := hiff.mp hv
    rcases hx with h | h | h
    · exact absurd hm.1 (by rw [h]; decide)
    · exact absurd hm.2.1 (by rw [h]; decide)
    · exact absurd hm.2.2 (by rw [h]; decide)

/-- Witness for C2 at a concrete entry: an "x" in the ambiguity field makes
the entry invalid even though the other fields are 1-5 values. -/
theorem isValidScore_spec_witness :
    isValidScore ⟨"x", "3", "4", "feat", none, none, none⟩ = false :=
  (isValidScore_spec ⟨"x", "3", "4", "feat", none, none, none⟩).2.1 (Or.inl rfl)

/-! ## Claim theorems: score mapping and state machine -/

/-- C4: committing a rating for issue number n twice leaves exactly one
entry keyed by n, equal to the second committed rating, and no other
issue's entry is created or deleted by the commits. -/
theorem setScore_overwrite_spec :
    ∀ (scores : List (Nat × ScoreEntry)) (n : Nat) (e1 e2 : ScoreEntry),
      (scores.map Prod.fst).Nodup →
      countKey n (setScore (setScore scores n e1) n e2) = 1 ∧
      lookupScore n (setScore (setScore scores n e1) n e2) = some e2 ∧
      (∀ k, k ≠ n →
        lookupScore k (setScore (setScore scores n e1) n e2)
          = lookupScore k scores) := by
  intro scores n e1 e2 hnd
  refine ⟨countKey_setScore_self _ n e2 (nodup_setScore scores n e1 hnd),
          lookupScore_setScore_self _ n e2, ?_⟩
  intro k hk
  rw [lookupScore_setScore_ne _ n k e2 hk, lookupScore_setScore_ne _ n k e1 hk]

/-- Witness for C4 at a concrete mapping: committing twice for issue 7
starting from the empty mapping stores the second rating, once. -/
theorem setScore_overwrite_spec_witness :
    countKey 7 (setScore (setScore [] 7 ⟨"1", "2", "3", "feat", none, none, none⟩)
        7 ⟨"4", "5", "1", "fix", none, none, none⟩) = 1 ∧
    lookupScore 7 (setScore (setScore [] 7 ⟨"1", "2", "3", "feat", none, none, none⟩)
        7 ⟨"4", "5", "1", "fix", none, none, none⟩)
      = some ⟨"4", "5", "1", "fix", none, none, none⟩ :=
  ⟨(setScore_overwrite_spec [] 7 _ _ (by simp)).1,
   (setScore_overwrite_spec [] 7 _ _ (by simp)).2.1⟩

/-- The committed mapping produced by `handleNext` (the same in all three
branches of the handler). -/
theorem handleNext_scores (s : SessionState) :
    (handleNext s).scores =
      setScore s.scores (s.issues.getD s.currentIndex defaultIssue).number
        { s.currentRating with
          issueNumber := some (s.issues.getD s.currentIndex defaultIssue).number
          title := some (s.issues.getD s.currentIndex defaultIssue).title
          url := some (s.issues.getD s.currentIndex defaultIssue).html_url } := by
  simp only [handleNext]
  split
  · rfl
  · split <;> rfl

theorem handleNext_step_iff (s : SessionState) (htr : s.step = Step.triage)
    (hidx : s.currentIndex < s.issues.length) :
    (handleNext s).step = Step.complete ↔
      TARGET_ISSUE_COUNT ≤ currentValidCount (handleNext s).scores ∨
        s.currentIndex = s.issues.length - 1 := by
  simp only [handleNext]
  split
  next h15 => exact iff_of_true rfl (Or.inl h15)
  next h15 =>
    split
    next hadv =>
      refine iff_of_false ?_ ?_
      · show ¬ s.step = Step.complete
        rw [htr]
        exact fun hc => Step.noConfusion hc
      · rintro (hc | hc)
        · exact h15 hc
        · omega
    next hadv =>
      refine iff_of_true rfl (Or.inr ?_)
      omega

/-- One skip step of the per-issue pipeline, in closed form. -/
theorem processCurrentIssue_skip (prCheck : Issue → Bool) (s : SessionState)
    (htr : s.step = Step.triage) (hidx : s.currentIndex < s.issues.length)
    (hpr : prCheck (s.issues.getD s.currentIndex defaultIssue) = true) :
    processCurrentIssue prCheck s =
      if s.currentIndex < s.issues.length - 1 then
        { s with currentRating := blankRating, summaryError := none
                 currentSummary := "", currentIndex := s.currentIndex + 1 }
      else
        { s with currentRating := blankRating, summaryError := none
                 currentSummary := "", step := Step.complete } := by
  simp only [processCurrentIssue]
  rw [if_pos ⟨htr, hidx⟩, if_pos hpr]

/-- C1: in the triage phase, a commit reaches Complete exactly when the
post-commit valid count is at least 15 or the current index is the last of
the fetched list; a skip reaches Complete exactly when the current index is
the last; early-finish always reaches Complete; exit returns to Input. -/
theorem session_complete_spec :
    ∀ s : SessionState, s.step = Step.triage →
      s.currentIndex < s.issues.length →
      ((handleNext s).step = Step.complete ↔
        TARGET_ISSUE_COUNT ≤ currentValidCount (handleNext s).scores ∨
          s.currentIndex = s.issues.length - 1) ∧
      (∀ prCheck : Issue → Bool,
        prCheck (s.issues.getD s.currentIndex defaultIssue) = true →
        ((processCurrentIssue prCheck s).step = Step.complete ↔
          s.currentIndex = s.issues.length - 1)) ∧
      (finishEarlyConfirm s).step = Step.complete ∧
      (exitConfirm s).step = Step.input := by
  intro s htr hidx
  refine ⟨handleNext_step_iff s htr hidx, ?_, rfl, rfl⟩
  intro prCheck hpr
  rw [processCurrentIssue_skip prCheck s htr hidx hpr]
  by_cases hadv : s.currentIndex < s.issues.length - 1
  · rw [if_pos hadv]
    refine iff_of_false ?_ ?_
    · show ¬ s.step = Step.complete
      rw [htr]
      exact fun hc => Step.noConfusion hc
    · omega
  · rw [if_neg hadv]
    exact iff_of_true rfl (by omega)

/-- A one-issue triage session with a filled draft rating, used as the
concrete instance for C1. -/
def exIssue1 : Issue :=
  { number := 1, title := "A", body := some "body-a", html_url := "u1"
    comments_url := "c1", url := "r1", created_at := "t1" }

def exIssue2 : Issue :=
  { number := 2, title := "B", body := none, html_url := "u2"
    comments_url := "c2", url := "r2", created_at := "t2" }

def exIssue3 : Issue :=
  { number := 3, title := "C", body := some "body-c", html_url := "u3"
    comments_url := "c3", url := "r3", created_at := "t3" }

def exSession : SessionState :=
  { step := Step.triage, issues := [exIssue1], currentIndex := 0, scores := []
    currentRating := ⟨"1", "2", "3", "feat", none, none, none⟩
    currentSummary := "", summaryError := none }

/-- Witness for C1 at a concrete one-issue session: committing the last
issue of the batch completes the session. -/
theorem session_complete_spec_witness :
    (handleNext exSession).step = Step.complete :=
  (session_complete_spec exSession rfl (by decide)).1.mpr (Or.inr (by decide))

/-- C5: when the PR-liveness check for the current issue returns true, the
pipeline records no score entry and advances the index by one when a next
index exists, and transitions to Complete when no next index exists. -/
theorem skip_advances_without_score :
    ∀ (prCheck : Issue → Bool) (s : SessionState),
      s.step = Step.triage → s.currentIndex < s.issues.length →
      prCheck (s.issues.getD s.currentIndex defaultIssue) = true →
      (processCurrentIssue prCheck s).scores = s.scores ∧
      (s.currentIndex < s.issues.length - 1 →
        (processCurrentIssue prCheck s).currentIndex = s.currentIndex + 1 ∧
        (processCurrentIssue prCheck s).step = s.step) ∧
      (¬ s.currentIndex < s.issues.length - 1 →
        (processCurrentIssue prCheck s).step = Step.complete) := by
  intro prCheck s htr hidx hpr
  rw [processCurrentIssue_skip prCheck s htr hidx hpr]
  by_cases hadv : s.currentIndex < s.issues.length - 1
  · rw [if_pos hadv]
    exact ⟨rfl, fun _ => ⟨rfl, rfl⟩, fun hc => absurd hadv hc⟩
  · rw [if_neg hadv]
    exact ⟨rfl, fun hc => absurd hc hadv, fun _ => rfl⟩

/-- PR-check oracle for the C5 instance: only issue #2 has an open PR. -/
def exPr : Issue → Bool := fun iss => iss.number == 2

/-- A 3-issue triage session positioned at the middle issue (#2), with #1
already committed, used as the concrete instance for C5. -/
def exS5 : SessionState :=
  { step := Step.triage, issues := [exIssue1, exIssue2, exIssue3]
    currentIndex := 1
    scores := [(1, ⟨"1", "2", "3", "feat", some 1, some "A", some "u1"⟩)]
    currentRating := blankRating, currentSummary := "", summaryError := none }

/-- Witness for C5 at the concrete 3-issue session: issue #2 is skipped
without a score entry and processing proceeds directly to index 2
(issue #3). -/
theorem skip_advances_without_score_witness :
    (processCurrentIssue exPr exS5).scores = exS5.scores ∧
    (processCurrentIssue exPr exS5).currentIndex = 2 ∧
    (processCurrentIssue exPr exS5).step = Step.triage := by
  have h := skip_advances_without_score exPr exS5 rfl (by decide) (by decide)
  exact ⟨h.1, (h.2.1 (by decide)).1, (h.2.1 (by decide)).2⟩

/-- C6: the PR-liveness checker returns true iff the fetched timeline
contains a cross-referenced event whose source issue has a pull_request
field and is open; every failure mode (non-ok response, transport error,
parse failure) returns false. -/
theorem checkForOpenPRs_spec :
    ∀ fetched : FetchResult (List TimelineEvent),
      (checkForOpenPRs fetched = true ↔
        ∃ events, fetched = FetchResult.ok events ∧
          ∃ ev ∈ events, ev.event = "cross-referenced" ∧
            ∃ src iss, ev.source = some src ∧ src.issue = some iss ∧
              iss.pull_request.isSome = true ∧ iss.state = "open") ∧
      checkForOpenPRs FetchResult.transportError = false ∧
      checkForOpenPRs FetchResult.notOk = false ∧
      checkForOpenPRs FetchResult.parseError = false := by
  intro fetched
  refine ⟨?_, rfl, rfl, rfl⟩
  cases fetched with
  | transportError => simp [checkForOpenPRs]
  | notOk => simp [checkForOpenPRs]
  | parseError => simp [checkForOpenPRs]
  | ok events =>
    simp only [checkForOpenPRs, List.any_eq_true]
    constructor
    · rintro ⟨ev, hmem, hev⟩
      refine ⟨events, rfl, ev, hmem, ?_⟩
      cases hsrc : ev.source with
      | none => simp [isOpenPrCrossRef, hsrc] at hev
      | some src =>
        cases hiss : src.issue with
        | none => simp [isOpenPrCrossRef, hsrc, hiss] at hev
        | some iss =>
          simp only [isOpenPrCrossRef, hsrc, hiss, Bool.and_eq_true,
            beq_iff_eq] at hev
          exact ⟨hev.1, src, iss, rfl, hiss, hev.2.1, hev.2.2⟩
    · rintro ⟨events2, heq, ev, hmem, h1, src, iss, hsrc, hiss, hpr, hst⟩
      injection heq with hh
      subst hh
      refine ⟨ev, hmem, ?_⟩
      simp [isOpenPrCrossRef, h1, hsrc, hiss, hpr, hst]

/-- Witness for C6 at a concrete timeline: a single cross-referenced event
from an open pull request makes the checker return true. -/
theorem checkForOpenPRs_spec_witness :
    checkForOpenPRs (FetchResult.ok
      [{ event := "cross-referenced"
         source := some { issue := some { pull_request := some (), state := "open" } } }])
      = true := by
  apply (checkForOpenPRs_spec _).1.mpr
  exact ⟨[⟨"cross-referenced", some ⟨some ⟨some (), "open"⟩⟩⟩], rfl,
         ⟨"cross-referenced", some ⟨some ⟨some (), "open"⟩⟩⟩, by simp, rfl,
         ⟨some ⟨some (), "open"⟩⟩, ⟨some (), "open"⟩, rfl, rfl, rfl, rfl⟩

/-- A 3-issue triage session positioned at index 2 with one committed
score, used as the concrete instance for C8. -/
def exS8 : SessionState :=
  { step := Step.triage, issues := [exIssue1, exIssue2, exIssue3]
    currentIndex := 2
    scores := [(1, ⟨"1", "2", "3", "feat", some 1, some "A", some "u1"⟩)]
    currentRating := blankRating, currentSummary := "", summaryError := none }

/-- C8 counterexample: confirming exit from a triage state at index 2
moves to the input phase and clears issues and scores, but the current
index stays 2 — it is not reset, contradicting the claim. -/
theorem exitConfirm_keeps_index_counterexample :
    exS8.step = Step.triage ∧ (exitConfirm exS8).step = Step.input ∧
    (exitConfirm exS8).issues = [] ∧ (exitConfirm exS8).scores = [] ∧
    (exitConfirm exS8).currentIndex = 2 ∧
    ¬ (exitConfirm exS8).currentIndex = 0 := by
  refine ⟨rfl, rfl, rfl, rfl, rfl, ?_⟩
  decide

/-- C8 (amended): the confirmed exit action transitions the phase to Input
and empties the issue list and the score mapping; the current index is left
unchanged (it is only reset by the next successful fetch). -/
theorem exitConfirm_spec :
    ∀ s : SessionState, s.step = Step.triage →
      (exitConfirm s).step = Step.input ∧ (exitConfirm s).issues = [] ∧
      (exitConfirm s).scores = [] ∧
      (exitConfirm s).currentIndex = s.currentIndex :=
  fun _ _ => ⟨rfl, rfl, rfl, rfl⟩

/-- Witness for the amended C8 at the concrete session exS8. -/
theorem exitConfirm_spec_witness :
    (exitConfirm exS8).step = Step.input ∧ (exitConfirm exS8).issues = [] ∧
    (exitConfirm exS8).scores = [] ∧
    (exitConfirm exS8).currentIndex = exS8.currentIndex :=
  exitConfirm_spec exS8 rfl

/-- C9 counterexample: a transport-level failure of the comments fetch is
caught by the catch block of generateSummaryForIssue, so the summarizer is
never invoked — contradicting "any failure of the comments fetch degrades
to an empty comment list and summarization still runs". -/
theorem generateSummary_transport_counterexample :
    generateSummaryForIssue exIssue1 FetchResult.transportError = none := rfl

/-- C9 (amended): a non-ok response from the comments fetch degrades to an
empty comment list and summarization still runs against the issue's title
and body; a transport or parse failure of the comments fetch instead
aborts the summarization step (the summary-error path) before the
summarizer is invoked. -/
theorem generateSummary_degrade_spec :
    ∀ issue : Issue,
      generateSummaryForIssue issue FetchResult.notOk
        = some (issueFullText issue []) ∧
      issueFullText issue [] = "Title: " ++ issue.title ++ "\n\nBody:\n"
        ++ issue.body.getD "No description provided." ++ "\n\n" ∧
      generateSummaryForIssue issue FetchResult.transportError = none ∧
      generateSummaryForIssue issue FetchResult.parseError = none :=
  fun _ => ⟨rfl, rfl, rfl, rfl⟩

end IssueScoring
